import Mathlib

/-!
Shallow embedding of the bulk CSV import pipeline of the products-api
repository (src/handlers.rs, function upload_products_csv, lines 237-445),
together with the field sanitizers it uses.  Strings are modelled as Lean
strings, machine integers as Nat, and the parsed floating-point price as an
exact value (a rational, or an infinity or NaN marker): no claim below
depends on rounding of binary floating point.  The database collection is an
external collaborator; its per-call responses are modelled by an oracle
giving, for the n-th insert_one call of the request, either success (none)
or a failure detail (some detail).
-/

namespace ProductsApi

/-- Model of Rust char::is_whitespace: the Unicode White_Space code points.
Used by the str::trim calls of upload_products_csv. -/
def rustIsWhitespace (c : Char) : Bool :=
  decide ((0x09 ≤ c.toNat ∧ c.toNat ≤ 0x0D) ∨ c.toNat = 0x20 ∨ c.toNat = 0x85 ∨
    c.toNat = 0xA0 ∨ c.toNat = 0x1680 ∨ (0x2000 ≤ c.toNat ∧ c.toNat ≤ 0x200A) ∨
    c.toNat = 0x2028 ∨ c.toNat = 0x2029 ∨ c.toNat = 0x202F ∨ c.toNat = 0x205F ∨
    c.toNat = 0x3000)

/-- Model of Rust char::is_alphanumeric restricted to the ASCII range
(letters and digits).  The full Unicode Alphabetic and Number tables live in
the Rust standard library, outside this repository; no claim below depends on
the classification of a non-ASCII letter. -/
def rustIsAlphanumeric (c : Char) : Bool :=
  c.isAlphanum

/-- The invisible characters removed from price strings by handlers.rs line
361: zero-width space U+200B, byte-order mark U+FEFF, carriage return, and
line feed. -/
def isInvisibleChar (c : Char) : Bool :=
  decide (c.toNat = 0x200B ∨ c.toNat = 0xFEFF ∨ c = '\r' ∨ c = '\n')

/-- Character class kept by the product-id sanitizer (handlers.rs line 313):
alphanumeric, hyphen, or underscore. -/
def idAllowedChar (c : Char) : Bool :=
  rustIsAlphanumeric c || c = '-' || c = '_'

/-- Character class kept by the product-name sanitizer (handlers.rs line
328): alphanumeric, whitespace, or hyphen. -/
def nameAllowedChar (c : Char) : Bool :=
  rustIsAlphanumeric c || rustIsWhitespace c || c = '-'

/-- Drop the longest run of characters satisfying p from the end of a list. -/
def dropWhileEnd (p : Char → Bool) (l : List Char) : List Char :=
  (l.reverse.dropWhile p).reverse

/-- Model of Rust str::trim on the character list: remove leading and
trailing Unicode whitespace. -/
def rustTrimL (l : List Char) : List Char :=
  dropWhileEnd rustIsWhitespace (l.dropWhile rustIsWhitespace)

/-- Model of Rust str::trim on strings. -/
def rustTrim (s : String) : String :=
  ⟨rustTrimL s.data⟩

/-- Model of Rust str::trim_start_matches with a single-character pattern:
every leading occurrence of the pattern character is removed (the removal is
repeated, not applied once). -/
def trimStartMatchesChar (pat : Char) : List Char → List Char
  | [] => []
  | c :: cs => if c = pat then trimStartMatchesChar pat cs else c :: cs

/-- Model of Rust str::trim_end_matches with a single-character pattern:
every trailing occurrence of the pattern character is removed. -/
def trimEndMatchesChar (pat : Char) (l : List Char) : List Char :=
  (trimStartMatchesChar pat l.reverse).reverse

/-- Model of Rust str::replace with a character-class pattern and the empty
replacement (handlers.rs line 361): scan the string and drop every character
of the class. -/
def replaceInvisible : List Char → List Char
  | [] => []
  | c :: cs => if isInvisibleChar c then replaceInvisible cs else c :: replaceInvisible cs

/-- Model of Rust str::split_once with the pattern "#": split at the first
occurrence of the hash character, if any. -/
def splitOnceHash : List Char → Option (List Char × List Char)
  | [] => none
  | c :: cs =>
    if c = '#' then some ([], cs)
    else (splitOnceHash cs).map (fun p => (c :: p.1, p.2))

/-- Name splitting, handlers.rs lines 299-303: split the raw first column on
the first literal hash; the left part (trimmed) is the candidate product
name, the right part (trimmed) the candidate id tag.  Without a hash the raw
name is the candidate name and the id tag is empty. -/
def splitName (raw_name : String) : String × String :=
  match splitOnceHash raw_name.data with
  | some (n, i) => (rustTrim ⟨n⟩, rustTrim ⟨i⟩)
  | none => (raw_name, "")

/-- Product-id sanitization, handlers.rs lines 306-323: for a non-empty id
tag, strip surrounding parentheses (trim_start_matches and trim_end_matches,
so every leading open and trailing close parenthesis), keep only
alphanumeric, hyphen and underscore characters, and re-prefix a non-empty
result with a hash. -/
def sanitized_id (product_id : String) : String :=
  if product_id ≠ "" then
    let id_content := trimEndMatchesChar ')' (trimStartMatchesChar '(' product_id.data)
    let clean_id := id_content.filter idAllowedChar
    if clean_id.isEmpty then "" else ⟨'#' :: clean_id⟩
  else ""

/-- Product-name sanitization, handlers.rs lines 326-331: keep only
alphanumeric, whitespace and hyphen characters, then trim. -/
def clean_name (product_name : String) : String :=
  rustTrim ⟨product_name.data.filter nameAllowedChar⟩

/-- Price cleaning, handlers.rs lines 358-361: trim_start_matches with the
dollar pattern (so every leading dollar sign is removed), then trim, then
remove every zero-width space, byte-order mark, carriage return and line
feed anywhere in the string. -/
def cleaned_price (price_str : String) : String :=
  ⟨replaceInvisible (rustTrimL (trimStartMatchesChar '$' price_str.data))⟩

/-- Exact model of a parsed f64 value: a rational for finite literals, or an
infinity or NaN marker.  Rust parses the literal to the nearest binary
double; the claims below depend only on parse success and on the sign test
p >= 0.0, which the exact value decides the same way for every literal the
pipeline can meet. -/
inductive FVal where
  | finite (q : ℚ)
  | posInf
  | negInf
  | nan
deriving DecidableEq, Repr

/-- The comparison p >= 0.0 of handlers.rs line 364 on the value model:
positive infinity passes, negative infinity and NaN fail. -/
def FVal.isNonneg : FVal → Bool
  | .finite q => decide (0 ≤ q)
  | .posInf => true
  | .negInf => false
  | .nan => false

/-- Numeric value of a decimal-digit character. -/
def digitVal (c : Char) : ℕ :=
  c.toNat - '0'.toNat

/-- Value of a list of decimal digits, most significant first. -/
def parseDigitsNat (l : List Char) : ℕ :=
  l.foldl (fun a c => 10 * a + digitVal c) 0

/-- ASCII lower-casing of one character. -/
def asciiLower (c : Char) : Char :=
  if 'A' ≤ c ∧ c ≤ 'Z' then Char.ofNat (c.toNat + 32) else c

/-- ASCII lower-casing of a string; models Rust str::to_lowercase (the full
Unicode lowering tables live in the Rust standard library; no claim below
depends on a non-ASCII letter). -/
def asciiToLower (s : String) : String :=
  ⟨s.data.map asciiLower⟩

/-- Model of Rust f64::from_str, the parse::<f64>() of handlers.rs line 363:
optional sign, then the keywords inf, infinity or nan (case-insensitive), or
a significand (digits, optionally a point and more digits, with at least one
digit) and an optional exponent.  The value is computed exactly; the error
detail is the display of Rust's ParseFloatError. -/
def parseF64 (s : String) : Except String FVal :=
  let (neg, rest) :=
    match s.data with
    | '+' :: t => (false, t)
    | '-' :: t => (true, t)
    | l => (false, l)
  let lower := rest.map asciiLower
  if lower = "inf".data ∨ lower = "infinity".data then
    .ok (if neg then .negInf else .posInf)
  else if lower = "nan".data then
    .ok .nan
  else
    let (intPart, r1) := rest.span Char.isDigit
    let (fracPart, r2) :=
      match r1 with
      | '.' :: t => t.span Char.isDigit
      | _ => ([], r1)
    if intPart.isEmpty ∧ fracPart.isEmpty then .error "invalid float literal"
    else
      let mantissa : ℕ := parseDigitsNat intPart * 10 ^ fracPart.length + parseDigitsNat fracPart
      let num : ℤ := if neg then -(mantissa : ℤ) else (mantissa : ℤ)
      match r2 with
      | [] => .ok (.finite (mkRat num (10 ^ fracPart.length)))
      | e :: t =>
        if e = 'e' ∨ e = 'E' then
          let (eneg, t2) : Bool × List Char :=
            match t with
            | '+' :: u => (false, u)
            | '-' :: u => (true, u)
            | u => (false, u)
          let (eds, t3) := t2.span Char.isDigit
          if eds.isEmpty ∨ ¬ t3.isEmpty then .error "invalid float literal"
          else
            let ex := parseDigitsNat eds
            if eneg then .ok (.finite (mkRat num (10 ^ (fracPart.length + ex))))
            else .ok (.finite (mkRat (num * (10 : ℤ) ^ ex) (10 ^ fracPart.length)))
        else .error "invalid float literal"

/-- Model of Rust bool::from_str (handlers.rs line 335): exactly the strings
true and false parse, case-sensitively. -/
def parseRustBool (s : String) : Option Bool :=
  if s = "true" then some true
  else if s = "false" then some false
  else none

/-- Product categories, models.rs. -/
inductive Category where
  | electronics
  | clothing
  | food
  | books
  | other
deriving DecidableEq, Repr

/-- Category classification, handlers.rs lines 386-392: a total match on the
lower-cased category text, every unrecognized value mapping to Other. -/
def parseCategory (category_str : String) : Category :=
  if category_str = "electronics" then .electronics
  else if category_str = "clothing" then .clothing
  else if category_str = "food" then .food
  else if category_str = "books" then .books
  else .other

/-- The product document inserted into the collection (models.rs; the id
field is None for every insert of the pipeline and is omitted). -/
structure Product where
  name : String
  price : FVal
  category : Category
  has_active_sale : Bool
deriving DecidableEq, Repr

/-- The error kinds pushed by upload_products_csv, each carrying the data
interpolated into its message.  The display of the parsed float value in the
negative-price message is presentation only and is not modelled; the kind
carries the value itself. -/
inductive ErrKind where
  | invalidColumns
  | nameRequired
  | priceRequired
  | invalidPriceNegative (p : FVal)
  | invalidPriceFormat (raw : String) (detail : String)
  | databaseError (detail : String)
  | csvParseError (detail : String)
deriving DecidableEq, Repr

/-- The message text of an error kind, as formatted by upload_products_csv
(the negative-price message omits the float display, see ErrKind). -/
def ErrKind.message : ErrKind → String
  | .invalidColumns => "Invalid number of columns"
  | .nameRequired => "Name is required"
  | .priceRequired => "Price is required"
  | .invalidPriceNegative _ => "Invalid price: must be non-negative"
  | .invalidPriceFormat raw detail =>
      "Invalid price format. Expected format: $X.XX, got: '" ++ raw ++ "'. Parse error: " ++ detail
  | .databaseError detail => "Database error: " ++ detail
  | .csvParseError detail => "Failed to parse CSV record: " ++ detail

/-- One error document pushed onto the errors vector: the line it is
attributed to, its kind, and the raw fields of the record when available
(the CSV-parse-failure document carries no data key). -/
structure ImportError where
  line : ℕ
  kind : ErrKind
  data : Option (List String)
deriving DecidableEq, Repr

/-- One element of the record stream produced by the CSV reader for the
uploaded file: either the trimmed fields of a record, or the detail of a
record-level parse failure.  The reader (csv crate, flexible mode, trim all,
headers on) consumes the header row itself, so the stream holds data rows
only. -/
abbrev CsvRecordResult := Except String (List String)

/-- The trimmed raw first column of a record, handlers.rs line 296. -/
def rowRawName (record : List String) : String :=
  rustTrim (record.getD 0 "")

/-- The candidate product name and id tag of a record, handlers.rs lines
299-303. -/
def rowNameParts (record : List String) : String × String :=
  splitName (rowRawName record)

/-- The sanitized product name of a record, handlers.rs lines 326-331. -/
def rowCleanName (record : List String) : String :=
  clean_name (rowNameParts record).1

/-- The sanitized id tag of a record, handlers.rs lines 306-323. -/
def rowSanitizedId (record : List String) : String :=
  sanitized_id (rowNameParts record).2

/-- The name of the product assembled for an eligible record, handlers.rs
line 400: the sanitized name, one space, and the sanitized id tag (possibly
empty, leaving a trailing space). -/
def rowAssembledName (record : List String) : String :=
  rowCleanName record ++ " " ++ rowSanitizedId record

/-- The trimmed raw price field, handlers.rs line 333. -/
def rowPriceStr (record : List String) : String :=
  rustTrim (record.getD 1 "")

/-- The trimmed, lower-cased raw category field, handlers.rs line 334. -/
def rowCategoryStr (record : List String) : String :=
  asciiToLower (rustTrim (record.getD 2 ""))

/-- The boolean parse of the trimmed sale-flag field, handlers.rs line 335;
a missing fourth column defaults the raw text to false. -/
def rowSaleParse (record : List String) : Option Bool :=
  parseRustBool (rustTrim (record.getD 3 "false"))

/-- The sale flag of a record: the parse result, defaulted to false on
failure without an error (handlers.rs line 394). -/
def rowSale (record : List String) : Bool :=
  (rowSaleParse record).getD false

/-- The category of a record, handlers.rs lines 386-392. -/
def rowCategory (record : List String) : Category :=
  parseCategory (rowCategoryStr record)

/-- Outcome of the price stage of one record, handlers.rs lines 348-384. -/
inductive PriceCheck where
  | missing
  | parsed (p : FVal)
  | negative (p : FVal)
  | malformed (detail : String)
deriving DecidableEq, Repr

/-- The price stage of one record: an empty trimmed price field is missing;
otherwise the cleaned price string is parsed as f64 and checked
non-negative. -/
def rowPriceCheck (record : List String) : PriceCheck :=
  let ps := rowPriceStr record
  if ps = "" then .missing
  else
    match parseF64 (cleaned_price ps) with
    | .ok p => if p.isNonneg then .parsed p else .negative p
    | .error e => .malformed e

/-- The price value bound by the price stage: the parsed value when it is
non-negative, and 0.0 in every failure case (handlers.rs lines 355, 372,
381). -/
def rowPrice (record : List String) : FVal :=
  match rowPriceCheck record with
  | .parsed p => p
  | _ => FVal.finite 0

/-- The errors pushed by the price stage for one record. -/
def rowPriceErrors (line : ℕ) (record : List String) : List ImportError :=
  match rowPriceCheck record with
  | .missing => [⟨line, .priceRequired, some record⟩]
  | .parsed _ => []
  | .negative p => [⟨line, .invalidPriceNegative p, some record⟩]
  | .malformed e => [⟨line, .invalidPriceFormat (rowPriceStr record) e, some record⟩]

/-- The validation errors pushed for one parsed record, in push order:
the column-count error (handlers.rs lines 286-293), then the name error
(lines 338-345), then the price error (lines 347-384). -/
def validationErrors (line : ℕ) (record : List String) : List ImportError :=
  (if record.length < 4 then [⟨line, .invalidColumns, some record⟩] else [])
  ++ (if rowCleanName record = "" then [⟨line, .nameRequired, some record⟩] else [])
  ++ rowPriceErrors line record

/-- The has_error flag of one parsed record: set by the column-count check,
the name check, or the price check (handlers.rs lines 284, 292, 344, 354,
371, 380). -/
def rowHasError (record : List String) : Bool :=
  decide (record.length < 4) || decide (rowCleanName record = "") ||
    (match rowPriceCheck record with
     | .parsed _ => false
     | _ => true)

/-- The product constructed for an eligible record, handlers.rs lines
398-404. -/
def rowCandidate (record : List String) : Product :=
  ⟨rowAssembledName record, rowPrice record, rowCategory record, rowSale record⟩

/-- The per-request accumulators of upload_products_csv, together with two
ghost observers of the store collaborator: attempts counts the insert_one
calls issued, inserted lists the products whose insert_one call returned
Ok, in call order. -/
structure ImportState where
  errors : List ImportError
  success_count : ℕ
  attempts : ℕ
  inserted : List Product
deriving DecidableEq, Repr

/-- The accumulators at the start of the request, handlers.rs lines 242-243. -/
def initState : ImportState :=
  ⟨[], 0, 0, []⟩

/-- The store collaborator: the response of the collection to the n-th
insert_one call of the request, none for Ok and some detail for Err. -/
abbrev DbOracle := ℕ → Option String

/-- Processing of one element of the record stream, handlers.rs lines
282-427: a parse failure pushes one error; a parsed record runs the
column-count, name and price checks in order, then, only when has_error is
unset, issues one insert_one call, counting a success or pushing a
database error. -/
def processRecord (oracle : DbOracle) (line : ℕ) (st : ImportState)
    (res : CsvRecordResult) : ImportState :=
  match res with
  | .error e => { st with errors := st.errors ++ [⟨line, .csvParseError e, none⟩] }
  | .ok record =>
    let errs := st.errors ++ validationErrors line record
    if rowHasError record then { st with errors := errs }
    else
      match oracle st.attempts with
      | none =>
        { errors := errs, success_count := st.success_count + 1,
          attempts := st.attempts + 1,
          inserted := st.inserted ++ [rowCandidate record] }
      | some e =>
        { errors := errs ++ [⟨line, .databaseError e, some record⟩],
          success_count := st.success_count,
          attempts := st.attempts + 1, inserted := st.inserted }

/-- The record loop of upload_products_csv, handlers.rs lines 280-429: the
line counter starts at 2 (the header is line 1) and increments once per
record of the stream. -/
def processRows (oracle : DbOracle) : ℕ → ImportState → List CsvRecordResult → ImportState
  | _, st, [] => st
  | line, st, r :: rs => processRows oracle (line + 1) (processRecord oracle line st r) rs

/-- The import run over the record stream of one uploaded file. -/
def importFile (oracle : DbOracle) (rows : List CsvRecordResult) : ImportState :=
  processRows oracle 2 initState rows

/-- One field of the multipart form, named, with the record stream its
payload parses to. -/
structure MultipartField where
  name : String
  rows : List CsvRecordResult

/-- The response of upload_products_csv: HTTP 200 with a message document,
or HTTP 422 with the errors vector. -/
inductive UploadResponse where
  | ok (message : String)
  | unprocessableEntity (errors : List ImportError)
deriving DecidableEq, Repr

/-- The multipart loop of upload_products_csv, handlers.rs lines 246-431:
every field named file is processed in turn against the shared
accumulators (the line counter restarts at 2 per file field); other fields
are skipped. -/
def uploadState (oracle : DbOracle) (parts : List MultipartField) : ImportState :=
  parts.foldl (fun st f => if f.name = "file" then processRows oracle 2 st f.rows else st)
    initState

/-- The response assembly of upload_products_csv, handlers.rs lines 433-444:
an empty errors vector yields the success message with the count, otherwise
the errors vector is returned. -/
def uploadProductsCsv (oracle : DbOracle) (parts : List MultipartField) : UploadResponse :=
  let final := uploadState oracle parts
  if final.errors.isEmpty then
    .ok ("Successfully imported " ++ toString final.success_count ++ " products")
  else
    .unprocessableEntity final.errors

/-- Count of insert_one calls one stream element gives rise to. -/
def recordAttempts : CsvRecordResult → ℕ
  | .error _ => 0
  | .ok record => if rowHasError record then 0 else 1

/-- The errors one stream element contributes, given the insertion-attempt
count reached before it. -/
def recordErrors (oracle : DbOracle) (line att : ℕ) : CsvRecordResult → List ImportError
  | .error e => [⟨line, .csvParseError e, none⟩]
  | .ok record =>
    validationErrors line record ++
      (if rowHasError record then []
       else
         match oracle att with
         | none => []
         | some e => [⟨line, .databaseError e, some record⟩])

/-- Count of successful insertions one stream element contributes. -/
def recordSuccess (oracle : DbOracle) (att : ℕ) : CsvRecordResult → ℕ
  | .error _ => 0
  | .ok record =>
    if rowHasError record then 0
    else match oracle att with
      | none => 1
      | some _ => 0

/-- The committed products one stream element contributes. -/
def recordInserted (oracle : DbOracle) (att : ℕ) : CsvRecordResult → List Product
  | .error _ => []
  | .ok record =>
    if rowHasError record then []
    else match oracle att with
      | none => [rowCandidate record]
      | some _ => []

/-- Total insert_one calls over a stream. -/
def runAttempts : List CsvRecordResult → ℕ
  | [] => 0
  | r :: rs => recordAttempts r + runAttempts rs

/-- The errors of a whole stream, rows in encounter order, each row's errors
in push order. -/
def runErrors (oracle : DbOracle) : ℕ → ℕ → List CsvRecordResult → List ImportError
  | _, _, [] => []
  | line, att, r :: rs =>
    recordErrors oracle line att r ++ runErrors oracle (line + 1) (att + recordAttempts r) rs

/-- Total successful insertions over a stream. -/
def runSuccesses (oracle : DbOracle) : ℕ → List CsvRecordResult → ℕ
  | _, [] => 0
  | att, r :: rs => recordSuccess oracle att r + runSuccesses oracle (att + recordAttempts r) rs

/-- The committed products of a whole stream, in call order. -/
def runInserted (oracle : DbOracle) : ℕ → List CsvRecordResult → List Product
  | _, [] => []
  | att, r :: rs => recordInserted oracle att r ++ runInserted oracle (att + recordAttempts r) rs

example : cleaned_price "$19.99" = "19.99" := by decide
example : cleaned_price "$$5" = "5" := by decide
example : cleaned_price "$ 12.50 " = "12.50" := by decide
example : cleaned_price " $ 12.50 " = "$ 12.50" := by decide
example : clean_name "Wid@get!" = "Widget" := by decide
example : sanitized_id "(ab!c)" = "#abc" := by decide
example : splitName "Widget #42" = ("Widget", "42") := by decide

/-- Modelled from the spec: price cleaning as the specification words it,
stripping a SINGLE leading dollar sign (if present), then trimming
whitespace, then removing every invisible character anywhere. -/
def specCleanPriceSingle (s : String) : String :=
  let afterDollar :=
    match s.data with
    | '$' :: t => t
    | l => l
  ⟨(rustTrimL afterDollar).filter (fun c => !isInvisibleChar c)⟩

/-- The amended cleaning rule: strip ALL leading dollar signs, then trim
whitespace, then remove every invisible character anywhere; stated with
dropWhile and filter, independently of the Rust string-function models. -/
def specCleanPriceAll (s : String) : String :=
  ⟨(rustTrimL (s.data.dropWhile (fun c => c == '$'))).filter (fun c => !isInvisibleChar c)⟩

/-- The cleaned string still begins with a dollar sign or a whitespace
character (the configurations under which a further cleaning pass can make
progress at the front). -/
def startBlocked (s : String) : Bool :=
  match s.data.head? with
  | none => false
  | some c => c == '$' || rustIsWhitespace c

/-- The string ends with a whitespace character. -/
def endsWithWs (s : String) : Bool :=
  match s.data.getLast? with
  | none => false
  | some c => rustIsWhitespace c

theorem trimStartMatchesChar_eq_dropWhile (pat : Char) (l : List Char) :
    trimStartMatchesChar pat l = l.dropWhile (fun c => c == pat) := by
  induction l with
  | nil => rfl
  | cons c cs ih =>
    by_cases h : c = pat
    · simp [trimStartMatchesChar, List.dropWhile, h, ih]
    · have hb : (c == pat) = false := by simp [h]
      simp [trimStartMatchesChar, List.dropWhile, h, ih, hb]

theorem replaceInvisible_eq_filter (l : List Char) :
    replaceInvisible l = l.filter (fun c => !isInvisibleChar c) := by
  induction l with
  | nil => rfl
  | cons c cs ih =>
    by_cases h : isInvisibleChar c <;> simp [replaceInvisible, List.filter, h, ih]

theorem mem_replaceInvisible_not_invisible {c : Char} {l : List Char}
    (h : c ∈ replaceInvisible l) : isInvisibleChar c = false := by
  rw [replaceInvisible_eq_filter] at h
  simpa using (List.of_mem_filter h)

theorem replaceInvisible_eq_self {l : List Char}
    (h : ∀ c ∈ l, isInvisibleChar c = false) : replaceInvisible l = l := by
  rw [replaceInvisible_eq_filter]
  exact List.filter_eq_self.mpr (fun c hc => by simp [h c hc])

theorem dropWhile_eq_self_of_head {p : Char → Bool} {l : List Char}
    (h : ∀ c, l.head? = some c → p c = false) : l.dropWhile p = l := by
  cases l with
  | nil => rfl
  | cons c cs => simp [List.dropWhile, h c rfl]

theorem trimStartMatchesChar_eq_self {pat : Char} {l : List Char}
    (h : ∀ c, l.head? = some c → c ≠ pat) : trimStartMatchesChar pat l = l := by
  cases l with
  | nil => rfl
  | cons c cs => simp [trimStartMatchesChar, h c rfl]

theorem rustTrimL_eq_self {l : List Char}
    (h1 : ∀ c, l.head? = some c → rustIsWhitespace c = false)
    (h2 : ∀ c, l.getLast? = some c → rustIsWhitespace c = false) :
    rustTrimL l = l := by
  unfold rustTrimL dropWhileEnd
  rw [dropWhile_eq_self_of_head h1]
  rw [dropWhile_eq_self_of_head (fun c hc => h2 c (by rwa [List.head?_reverse] at hc))]
  exact List.reverse_reverse l

theorem processRecord_spec (oracle : DbOracle) (line : ℕ) (st : ImportState)
    (res : CsvRecordResult) :
    processRecord oracle line st res =
      ⟨st.errors ++ recordErrors oracle line st.attempts res,
       st.success_count + recordSuccess oracle st.attempts res,
       st.attempts + recordAttempts res,
       st.inserted ++ recordInserted oracle st.attempts res⟩ := by
  cases res with
  | error e =>
    simp [processRecord, recordErrors, recordSuccess, recordAttempts, recordInserted]
  | ok record =>
    cases h : rowHasError record with
    | true =>
      simp [processRecord, recordErrors, recordSuccess, recordAttempts, recordInserted, h]
    | false =>
      cases oh : oracle st.attempts with
      | none =>
        simp [processRecord, recordErrors, recordSuccess, recordAttempts, recordInserted, h, oh]
      | some e =>
        simp [processRecord, recordErrors, recordSuccess, recordAttempts, recordInserted, h, oh,
          List.append_assoc]

theorem processRows_spec (oracle : DbOracle) (rows : List CsvRecordResult) :
    ∀ (line : ℕ) (st : ImportState),
    processRows oracle line st rows =
      ⟨st.errors ++ runErrors oracle line st.attempts rows,
       st.success_count + runSuccesses oracle st.attempts rows,
       st.attempts + runAttempts rows,
       st.inserted ++ runInserted oracle st.attempts rows⟩ := by
  induction rows with
  | nil =>
    intro line st
    simp [processRows, runErrors, runSuccesses, runAttempts, runInserted]
  | cons r rs ih =>
    intro line st
    rw [processRows, processRecord_spec, ih]
    simp [runErrors, runSuccesses, runAttempts, runInserted, List.append_assoc, Nat.add_assoc]

theorem validationErrors_nil_iff (line : ℕ) (record : List String) :
    validationErrors line record = [] ↔ rowHasError record = false := by
  unfold validationErrors rowHasError rowPriceErrors
  cases h : rowPriceCheck record <;>
    by_cases h4 : record.length < 4 <;>
      by_cases hn : rowCleanName record = "" <;>
        simp [h4, hn, h]

theorem runSuccesses_eq_length_runInserted (oracle : DbOracle) (rows : List CsvRecordResult) :
    ∀ att, runSuccesses oracle att rows = (runInserted oracle att rows).length := by
  induction rows with
  | nil => intro att; simp [runSuccesses, runInserted]
  | cons r rs ih =>
    intro att
    rw [runSuccesses, runInserted, List.length_append, ih]
    congr 1
    cases r with
    | error e => simp [recordSuccess, recordInserted]
    | ok record =>
      cases h : rowHasError record with
      | true => simp [recordSuccess, recordInserted, h]
      | false => cases oh : oracle att <;> simp [recordSuccess, recordInserted, h, oh]

theorem runSuccesses_le_length (oracle : DbOracle) (rows : List CsvRecordResult) :
    ∀ att, runSuccesses oracle att rows ≤ rows.length := by
  induction rows with
  | nil => intro att; simp [runSuccesses]
  | cons r rs ih =>
    intro att
    rw [runSuccesses, List.length_cons]
    have hr : recordSuccess oracle att r ≤ 1 := by
      cases r with
      | error e => simp [recordSuccess]
      | ok record =>
        cases h : rowHasError record with
        | true => simp [recordSuccess, h]
        | false => cases oh : oracle att <;> simp [recordSuccess, h, oh]
    have := ih (att + recordAttempts r)
    omega

theorem runErrors_nil_iff (oracle : DbOracle) (rows : List CsvRecordResult) :
    ∀ line att, runErrors oracle line att rows = [] ↔
      ((∀ r ∈ rows, ∃ record, r = Except.ok record ∧ rowHasError record = false) ∧
        runSuccesses oracle att rows = rows.length) := by
  induction rows with
  | nil => intro line att; simp [runErrors, runSuccesses]
  | cons r rs ih =>
    intro line att
    rw [runErrors, runSuccesses, List.append_eq_nil]
    cases r with
    | error e => simp [recordErrors]
    | ok record =>
      cases h : rowHasError record with
      | true =>
        simp [recordErrors, h, validationErrors_nil_iff]
      | false =>
        cases oh : oracle att with
        | none =>
          rw [ih (line + 1) (att + recordAttempts (Except.ok record))]
          simp only [recordErrors, recordSuccess, recordAttempts, h, oh, if_false,
            Bool.false_eq_true, List.append_nil, List.length_cons]
          rw [validationErrors_nil_iff]
          simp [h]
          intro _
          omega
        | some e =>
          have hle := runSuccesses_le_length oracle rs (att + recordAttempts (Except.ok record))
          simp only [recordErrors, recordSuccess, recordAttempts, h, oh, Bool.false_eq_true,
            if_false, List.length_cons] at hle ⊢
          constructor
          · intro ⟨h1, _⟩
            exact absurd h1 (by simp)
          · intro ⟨_, hcnt⟩
            omega

theorem runErrors_append (oracle : DbOracle) (pre : List CsvRecordResult) :
    ∀ (line att : ℕ) (r : CsvRecordResult) (post : List CsvRecordResult),
    runErrors oracle line att (pre ++ r :: post) =
      runErrors oracle line att pre
      ++ recordErrors oracle (line + pre.length) (att + runAttempts pre) r
      ++ runErrors oracle (line + pre.length + 1) (att + runAttempts pre + recordAttempts r) post := by
  induction pre with
  | nil => intro line att r post; simp [runErrors, runAttempts]
  | cons q qs ih =>
    intro line att r post
    rw [List.cons_append, runErrors, runErrors, ih, runAttempts, List.length_cons,
      List.append_assoc]
    have e1 : line + 1 + qs.length = line + (qs.length + 1) := by omega
    have e2 : att + recordAttempts q + runAttempts qs =
        att + (recordAttempts q + runAttempts qs) := by omega
    rw [e1, e2]
    simp [List.append_assoc]

theorem validationErrors_line {line : ℕ} {record : List String} :
    ∀ e ∈ validationErrors line record, e.line = line := by
  intro e he
  simp only [validationErrors, List.mem_append] at he
  rcases he with (he | he) | he
  · split at he <;> simp_all
  · split at he <;> simp_all
  · unfold rowPriceErrors at he
    split at he <;> simp_all

theorem recordErrors_line {oracle : DbOracle} {line att : ℕ} {r : CsvRecordResult} :
    ∀ e ∈ recordErrors oracle line att r, e.line = line := by
  intro e he
  cases r with
  | error d =>
    simp only [recordErrors, List.mem_singleton] at he
    simp [he]
  | ok record =>
    simp only [recordErrors, List.mem_append] at he
    rcases he with he | he
    · exact validationErrors_line e he
    · split at he
      · simp at he
      · split at he
        · simp at he
        · simp only [List.mem_singleton] at he
          simp [he]

theorem runInserted_mem (oracle : DbOracle) (rows : List CsvRecordResult) :
    ∀ att p, p ∈ runInserted oracle att rows →
      ∃ record, Except.ok record ∈ rows ∧ rowHasError record = false ∧
        p = rowCandidate record := by
  induction rows with
  | nil => intro att p hp; simp [runInserted] at hp
  | cons r rs ih =>
    intro att p hp
    rw [runInserted, List.mem_append] at hp
    rcases hp with hp | hp
    · cases r with
      | error e => simp [recordInserted] at hp
      | ok record =>
        cases h : rowHasError record with
        | true => rw [recordInserted] at hp; simp [h] at hp
        | false =>
          cases oh : oracle att with
          | none =>
            rw [recordInserted] at hp
            simp only [h, oh, Bool.false_eq_true, if_false, List.mem_singleton] at hp
            exact ⟨record, by simp, h, hp⟩
          | some e => rw [recordInserted] at hp; simp [h, oh] at hp
    · obtain ⟨record, hm, hh, hc⟩ := ih _ p hp
      exact ⟨record, List.mem_cons_of_mem _ hm, hh, hc⟩

/-- C3 (counterexample): the cleaned price string is claimed to equal the
result of stripping a SINGLE leading dollar sign, then trimming, then
removing the invisible characters; on the concrete raw price field composed
of two dollar signs and the digit five, the code strips both dollar signs
while the claimed pipeline strips one, so the claim fails. -/
theorem c3_single_dollar_counterexample :
    cleaned_price "$$5" = "5" ∧ specCleanPriceSingle "$$5" = "$5" ∧
      cleaned_price "$$5" ≠ specCleanPriceSingle "$$5" := by
  refine ⟨by decide, by decide, by decide⟩

/-- C3 (amended): for every raw price field, the cleaned price string equals
the result of stripping ALL leading dollar signs, then trimming whitespace,
then removing every occurrence of zero-width space, byte-order mark,
carriage return and line feed anywhere in the string. -/
theorem c3_price_cleaning_all_dollars (s : String) :
    cleaned_price s = specCleanPriceAll s := by
  unfold cleaned_price specCleanPriceAll
  rw [trimStartMatchesChar_eq_dropWhile, replaceInvisible_eq_filter]

/-- C4 (counterexample): price cleaning is not idempotent: on the concrete
input dollar-space-dollar-five, one pass yields dollar-five (the trim
exposes a new leading dollar sign) and a second pass strips it, so applying
the cleaning twice differs from applying it once. -/
theorem c4_idempotence_counterexample :
    cleaned_price "$ $5" = "$5" ∧ cleaned_price (cleaned_price "$ $5") = "5" ∧
      cleaned_price (cleaned_price "$ $5") ≠ cleaned_price "$ $5" := by
  refine ⟨by decide, by decide, by decide⟩

/-- C4 (amended): price cleaning is idempotent on every input whose cleaned
result does not begin with a dollar sign or whitespace and does not end with
whitespace (the counterexample shows some restriction of this shape is
needed: a cleaning pass can expose a new leading dollar sign or new boundary
whitespace, which a second pass then removes). -/
theorem c4_cleaning_idempotent_conditional (s : String)
    (h1 : startBlocked (cleaned_price s) = false)
    (h2 : endsWithWs (cleaned_price s) = false) :
    cleaned_price (cleaned_price s) = cleaned_price s := by
  have hinv : ∀ c ∈ (cleaned_price s).data, isInvisibleChar c = false := by
    intro c hc
    exact mem_replaceInvisible_not_invisible hc
  have hhead : ∀ c, (cleaned_price s).data.head? = some c →
      c ≠ '$' ∧ rustIsWhitespace c = false := by
    intro c hc
    unfold startBlocked at h1
    rw [hc] at h1
    simp only [Bool.or_eq_false_iff, beq_eq_false_iff_ne] at h1
    exact h1
  have hlast : ∀ c, (cleaned_price s).data.getLast? = some c →
      rustIsWhitespace c = false := by
    intro c hc
    unfold endsWithWs at h2
    rw [hc] at h2
    exact h2
  conv_lhs => rw [cleaned_price]
  rw [trimStartMatchesChar_eq_self (fun c hc => (hhead c hc).1)]
  rw [rustTrimL_eq_self (fun c hc => (hhead c hc).2) hlast]
  rw [replaceInvisible_eq_self hinv]

theorem c4_cleaning_idempotent_witness :
    startBlocked (cleaned_price "$1.99 ") = false ∧
      endsWithWs (cleaned_price "$1.99 ") = false ∧
      cleaned_price (cleaned_price "$1.99 ") = cleaned_price "$1.99 " :=
  ⟨by decide, by decide, c4_cleaning_idempotent_conditional "$1.99 " (by decide) (by decide)⟩

/-- Ten data rows for the C1 scenario: eight valid rows followed by two rows
with validation errors (an empty name, then an empty price). -/
def c1Rows : List CsvRecordResult :=
  [Except.ok ["Item1", "10.00", "electronics", "true"],
   Except.ok ["Item2", "11.00", "clothing", "false"],
   Except.ok ["Item3", "12.00", "food", "true"],
   Except.ok ["Item4", "13.00", "books", "false"],
   Except.ok ["Item5", "14.00", "toys", "true"],
   Except.ok ["Item6", "15.00", "electronics", "false"],
   Except.ok ["Item7", "16.00", "food", "true"],
   Except.ok ["Item8", "17.00", "books", "false"],
   Except.ok ["", "18.00", "food", "false"],
   Except.ok ["Item10", "", "food", "false"]]

/-- A store that rejects the fourth insert_one call of the request with a
duplicate-key detail and accepts every other call. -/
def c1Oracle : DbOracle :=
  fun n => if n = 3 then some "duplicate key" else none

/-- C1: for every import run the final state satisfies: the success count
equals the number of insert calls the store accepted; the errors vector is
the concatenation, in row encounter order, of each row's errors, within a
row in the order column-count, name, price, insertion (this is what
runErrors builds); the errors vector is empty iff every row parsed, passed
validation and was inserted; and on the concrete ten-row scenario with two
validation failures and one insertion failure among the eight valid rows,
the outcome is success count seven and exactly three errors. -/
theorem c1_import_outcome :
    (∀ (oracle : DbOracle) (rows : List CsvRecordResult),
      (importFile oracle rows).success_count = (importFile oracle rows).inserted.length ∧
      (importFile oracle rows).errors = runErrors oracle 2 0 rows ∧
      ((importFile oracle rows).errors ≠ [] ↔
        ¬ ((∀ r ∈ rows, ∃ record, r = Except.ok record ∧ rowHasError record = false) ∧
          (importFile oracle rows).success_count = rows.length))) ∧
    (importFile c1Oracle c1Rows).success_count = 7 ∧
    (importFile c1Oracle c1Rows).errors.length = 3 := by
  refine ⟨fun oracle rows => ?_, by decide, by decide⟩
  have hspec := processRows_spec oracle rows 2 initState
  refine ⟨?_, ?_, ?_⟩
  · rw [importFile, hspec]
    simp [initState, runSuccesses_eq_length_runInserted]
  · rw [importFile, hspec]
    simp [initState]
  · rw [importFile, hspec]
    simp only [initState, List.nil_append, Nat.zero_add]
    exact not_congr (runErrors_nil_iff oracle rows 2 0)

/-- C2: every product committed by an import run has as its name the
sanitized clean name of its source record, one space, and the sanitized id
suffix, the trailing space being preserved when the suffix is empty. -/
theorem c2_inserted_name_shape (oracle : DbOracle) (rows : List CsvRecordResult)
    (p : Product) (h : p ∈ (importFile oracle rows).inserted) :
    ∃ record, Except.ok record ∈ rows ∧
      p.name = rowCleanName record ++ " " ++ rowSanitizedId record ∧
      (rowSanitizedId record = "" → p.name = rowCleanName record ++ " ") := by
  rw [importFile, processRows_spec] at h
  simp only [initState, List.nil_append] at h
  obtain ⟨record, hm, hh, hc⟩ := runInserted_mem oracle rows 0 p h
  refine ⟨record, hm, by rw [hc]; rfl, ?_⟩
  intro hid
  rw [hc]
  show rowAssembledName record = rowCleanName record ++ " "
  rw [rowAssembledName, hid]
  simp

theorem c2_inserted_name_witness :
    (Product.mk "Solo " (.finite (mkRat 1 1)) .food true) ∈
        (importFile (fun _ => none)
          [Except.ok ["Solo", "1", "food", "true"]]).inserted ∧
    ∃ record, Except.ok record ∈
        ([Except.ok ["Solo", "1", "food", "true"]] : List CsvRecordResult) ∧
      (Product.mk "Solo " (.finite (mkRat 1 1)) .food true).name =
        rowCleanName record ++ " " ++ rowSanitizedId record ∧
      (rowSanitizedId record = "" →
        (Product.mk "Solo " (.finite (mkRat 1 1)) .food true).name =
          rowCleanName record ++ " ") :=
  ⟨by decide,
    c2_inserted_name_shape (fun _ => none) [Except.ok ["Solo", "1", "food", "true"]]
      (Product.mk "Solo " (.finite (mkRat 1 1)) .food true) (by decide)⟩

/-- C5: a row is attempted for insertion (the attempts counter advances) iff
its column-count, name and price checks produced zero errors; on the
concrete row of four empty fields, the recorded errors are exactly the name
error and the price error, whose message texts are the required ones, and no
insertion is attempted. -/
theorem c5_eligibility_iff_no_validation_errors :
    (∀ (oracle : DbOracle) (line : ℕ) (st : ImportState) (record : List String),
      (processRecord oracle line st (Except.ok record)).attempts =
        (if validationErrors line record = [] then st.attempts + 1 else st.attempts)) ∧
    (∀ (oracle : DbOracle),
      (processRecord oracle 2 initState (Except.ok ["", "", "", ""])).errors =
        [⟨2, .nameRequired, some ["", "", "", ""]⟩,
         ⟨2, .priceRequired, some ["", "", "", ""]⟩] ∧
      (processRecord oracle 2 initState (Except.ok ["", "", "", ""])).attempts = 0) ∧
    ErrKind.nameRequired.message = "Name is required" ∧
    ErrKind.priceRequired.message = "Price is required" := by
  refine ⟨?_, ?_, rfl, rfl⟩
  · intro oracle line st record
    rw [processRecord_spec]
    cases h : rowHasError record with
    | true =>
      have hv : ¬ validationErrors line record = [] := by
        rw [validationErrors_nil_iff, h]
        simp
      simp [recordAttempts, h, hv]
    | false =>
      have hv : validationErrors line record = [] :=
        (validationErrors_nil_iff line record).mpr h
      simp [recordAttempts, h, hv]
  · intro oracle
    have hre : rowHasError ["", "", "", ""] = true := by decide
    constructor
    · rw [processRecord_spec]
      simp only [initState, List.nil_append, recordErrors, hre, if_true]
      decide
    · rw [processRecord_spec]
      simp [recordAttempts, hre, initState]

/-- C6: a parsed row with fewer than four columns always records the
column-count error for its line; the errors vector only ever grows across
the run, so no later success removes it; and on the concrete one-field row
the pipeline still extracts the present field (the name check passes) and
records the further price error after the column-count error. -/
theorem c6_column_count_error (oracle : DbOracle) (line : ℕ) (st : ImportState)
    (record : List String) (h : record.length < 4) :
    (ImportError.mk line .invalidColumns (some record)) ∈
        (processRecord oracle line st (Except.ok record)).errors ∧
    (∀ (rows : List CsvRecordResult) (line0 : ℕ) (st0 : ImportState),
      ∃ tail, (processRows oracle line0 st0 rows).errors = st0.errors ++ tail) ∧
    (processRecord oracle 2 initState (Except.ok ["x"])).errors =
      [⟨2, .invalidColumns, some ["x"]⟩, ⟨2, .priceRequired, some ["x"]⟩] ∧
    ErrKind.invalidColumns.message = "Invalid number of columns" := by
  refine ⟨?_, ?_, ?_, rfl⟩
  · rw [processRecord_spec]
    simp [recordErrors, validationErrors, h]
  · intro rows line0 st0
    rw [processRows_spec]
    exact ⟨_, rfl⟩
  · have hre : rowHasError ["x"] = true := by decide
    rw [processRecord_spec]
    simp only [initState, List.nil_append, recordErrors, hre, if_true]
    decide

theorem c6_column_count_witness :
    (["x"] : List String).length < 4 ∧
      (ImportError.mk 2 .invalidColumns (some ["x"])) ∈
        (processRecord (fun _ => none) 2 initState (Except.ok ["x"])).errors :=
  ⟨by decide, (c6_column_count_error (fun _ => none) 2 initState ["x"] (by decide)).1⟩

/-- C7: error line attribution: in any run over a stream split as pre, r,
post, the errors are those of pre, then those of r attributed to line
pre.length + 2 (line 2 for the first data row, the header being line 1,
one more per preceding physical data row), then those of post starting at
the next line; and every error of one row carries exactly that row's line
number, however many errors the row produced. -/
theorem c7_line_numbering (oracle : DbOracle) (pre : List CsvRecordResult)
    (r : CsvRecordResult) (post : List CsvRecordResult) :
    (importFile oracle (pre ++ r :: post)).errors =
      runErrors oracle 2 0 pre
      ++ recordErrors oracle (2 + pre.length) (runAttempts pre) r
      ++ runErrors oracle (2 + pre.length + 1) (runAttempts pre + recordAttempts r) post ∧
    (∀ e ∈ recordErrors oracle (2 + pre.length) (runAttempts pre) r,
      e.line = 2 + pre.length) := by
  constructor
  · rw [importFile, processRows_spec]
    simp only [initState, List.nil_append]
    rw [runErrors_append]
    simp
  · intro e he
    exact recordErrors_line e he

/-- C8: the response is the success message carrying the final count when
the errors vector is empty, and otherwise carries the full ordered errors
vector; the concrete mixed run (one committed row, one name failure) shows
the error response is returned even with a positive success count. -/
theorem c8_response_shape :
    (∀ (oracle : DbOracle) (parts : List MultipartField),
      uploadProductsCsv oracle parts =
        if (uploadState oracle parts).errors = [] then
          UploadResponse.ok ("Successfully imported " ++
            toString (uploadState oracle parts).success_count ++ " products")
        else UploadResponse.unprocessableEntity (uploadState oracle parts).errors) ∧
    uploadProductsCsv (fun _ => none)
        [⟨"file", [Except.ok ["Widget", "1.00", "food", "true"],
                   Except.ok ["", "2", "food", "false"]]⟩] =
      UploadResponse.unprocessableEntity
        [⟨3, .nameRequired, some ["", "2", "food", "false"]⟩] ∧
    (uploadState (fun _ => none)
        [⟨"file", [Except.ok ["Widget", "1.00", "food", "true"],
                   Except.ok ["", "2", "food", "false"]]⟩]).success_count = 1 := by
  refine ⟨fun oracle parts => ?_, by decide, by decide⟩
  rw [uploadProductsCsv]
  cases hl : (uploadState oracle parts).errors with
  | nil => simp [hl]
  | cons a l => simp [hl]

theorem getD_take_of_lt {l : List String} {i n : ℕ} (h : i < n) (d : String) :
    (l.take n).getD i d = l.getD i d := by
  simp [List.getD, List.getElem?_take_of_lt h]

/-- C9: a parsed row with at least four columns never receives the
column-count error, and its validation outcome and constructed product
depend only on the first four fields: the candidate product, the has_error
flag, and the kinds of the validation errors coincide with those of the row
truncated to its first four fields. -/
theorem c9_extra_columns_ignored (record : List String) (h : 4 ≤ record.length) :
    (∀ line, ∀ e ∈ validationErrors line record, e.kind ≠ ErrKind.invalidColumns) ∧
    rowCandidate record = rowCandidate (record.take 4) ∧
    rowHasError record = rowHasError (record.take 4) ∧
    (∀ line, (validationErrors line record).map ImportError.kind =
      (validationErrors line (record.take 4)).map ImportError.kind) := by
  have h0 : rowRawName (record.take 4) = rowRawName record := by
    rw [rowRawName, rowRawName, getD_take_of_lt (show (0:ℕ) < 4 by omega)]
  have h1 : rowPriceStr (record.take 4) = rowPriceStr record := by
    rw [rowPriceStr, rowPriceStr, getD_take_of_lt (show (1:ℕ) < 4 by omega)]
  have h2 : rowCategoryStr (record.take 4) = rowCategoryStr record := by
    rw [rowCategoryStr, rowCategoryStr, getD_take_of_lt (show (2:ℕ) < 4 by omega)]
  have h3 : rowSaleParse (record.take 4) = rowSaleParse record := by
    rw [rowSaleParse, rowSaleParse, getD_take_of_lt (show (3:ℕ) < 4 by omega)]
  have hlen : ¬ record.length < 4 := by omega
  have hlen4 : ¬ (record.take 4).length < 4 := by
    simp only [List.length_take]
    omega
  have hcn : rowCleanName (record.take 4) = rowCleanName record := by
    rw [rowCleanName, rowCleanName, rowNameParts, rowNameParts, h0]
  have hsi : rowSanitizedId (record.take 4) = rowSanitizedId record := by
    rw [rowSanitizedId, rowSanitizedId, rowNameParts, rowNameParts, h0]
  have hpc : rowPriceCheck (record.take 4) = rowPriceCheck record := by
    rw [rowPriceCheck, rowPriceCheck, h1]
  have hpe : ∀ line, (rowPriceErrors line record).map ImportError.kind =
      (rowPriceErrors line (record.take 4)).map ImportError.kind := by
    intro line
    unfold rowPriceErrors
    rw [hpc]
    cases rowPriceCheck record <;> simp [h1]
  refine ⟨?_, ?_, ?_, ?_⟩
  · intro line e he
    simp only [validationErrors, if_neg hlen, List.nil_append, List.mem_append] at he
    rcases he with he | he
    · split at he <;> simp_all
    · unfold rowPriceErrors at he
      split at he <;> simp_all
  · rw [rowCandidate, rowCandidate, rowAssembledName, rowAssembledName, hcn, hsi,
      rowPrice, rowPrice, hpc, rowCategory, rowCategory, h2, rowSale, rowSale, h3]
  · rw [rowHasError, rowHasError, hcn, hpc]
    simp [hlen, hlen4]
  · intro line
    rw [validationErrors, validationErrors, if_neg hlen, if_neg hlen4, hcn]
    by_cases hn : rowCleanName record = "" <;>
      simp [hn, hpe line]

theorem c9_extra_columns_witness :
    4 ≤ (["A", "1", "food", "true", "extra"] : List String).length ∧
      ((∀ line, ∀ e ∈ validationErrors line ["A", "1", "food", "true", "extra"],
          e.kind ≠ ErrKind.invalidColumns) ∧
        rowCandidate ["A", "1", "food", "true", "extra"] =
          rowCandidate (["A", "1", "food", "true", "extra"].take 4) ∧
        rowHasError ["A", "1", "food", "true", "extra"] =
          rowHasError (["A", "1", "food", "true", "extra"].take 4) ∧
        (∀ line, (validationErrors line ["A", "1", "food", "true", "extra"]).map
            ImportError.kind =
          (validationErrors line (["A", "1", "food", "true", "extra"].take 4)).map
            ImportError.kind)) :=
  ⟨by decide, c9_extra_columns_ignored ["A", "1", "food", "true", "extra"] (by decide)⟩

/-- C10: a multipart upload containing no field named file processes no
rows: the accumulators stay at their initial values and the response is the
all-success message importing zero products. -/
theorem c10_no_file_field (oracle : DbOracle) (parts : List MultipartField)
    (h : ∀ f ∈ parts, f.name ≠ "file") :
    uploadProductsCsv oracle parts = UploadResponse.ok "Successfully imported 0 products" := by
  have hstate : ∀ (ps : List MultipartField), (∀ f ∈ ps, f.name ≠ "file") →
      ps.foldl (fun st f => if f.name = "file" then processRows oracle 2 st f.rows else st)
        initState = initState := by
    intro ps
    induction ps with
    | nil => intro _; rfl
    | cons f fs ih =>
      intro hps
      rw [List.foldl_cons, if_neg (hps f (List.mem_cons_self f fs))]
      exact ih (fun g hg => hps g (List.mem_cons_of_mem f hg))
  rw [uploadProductsCsv, uploadState, hstate parts h]
  rfl

theorem c10_no_file_field_witness :
    (∀ f ∈ [MultipartField.mk "data" [Except.ok ["x", "1", "food", "true"]]],
      f.name ≠ "file") ∧
    uploadProductsCsv (fun _ => none)
        [MultipartField.mk "data" [Except.ok ["x", "1", "food", "true"]]] =
      UploadResponse.ok "Successfully imported 0 products" :=
  ⟨by decide,
    c10_no_file_field (fun _ => none)
      [MultipartField.mk "data" [Except.ok ["x", "1", "food", "true"]]] (by decide)⟩

/-!
Sanity checks of the embedding against the concrete scenarios of the
specification (section 8) and the Rust library functions it relies on.
-/

example : parseF64 "19.99" = .ok (.finite (mkRat 1999 100)) := by rfl
example : parseF64 "abc" = .error "invalid float literal" := by rfl
example : parseF64 "1e2" = .ok (.finite (mkRat 100 1)) := by rfl
example : parseF64 "-3.5e-1" = .ok (.finite (mkRat (-35) 100)) := by rfl
example : parseF64 "INF" = .ok .posInf := by rfl
example : parseF64 ".5" = .ok (.finite (mkRat 5 10)) := by rfl
example : parseF64 "12." = .ok (.finite (mkRat 12 1)) := by rfl
example : parseF64 "" = .error "invalid float literal" := by rfl
example : rowCandidate ["Widget #42", "$19.99", "electronics", "true"] =
    ⟨"Widget #42", .finite (mkRat 1999 100), .electronics, true⟩ := by decide
example : rowHasError ["Widget #42", "$19.99", "electronics", "true"] = false := by decide
example : validationErrors 2 ["", "", "", ""] =
    [⟨2, .nameRequired, some ["", "", "", ""]⟩, ⟨2, .priceRequired, some ["", "", "", ""]⟩] := by
  decide
example : rowHasError ["Gadget", "abc", "toys", "false"] = true := by decide
example : rowCategory ["Gadget", "abc", "toys", "false"] = .other := by decide
example : rowPriceErrors 2 ["Gadget", "abc", "toys", "false"] =
    [⟨2, .invalidPriceFormat "abc" "invalid float literal", some ["Gadget", "abc", "toys", "false"]⟩] := by
  decide
example :
    (importFile (fun _ => none) [.ok ["Widget #42", "$19.99", "electronics", "true"]]) =
      ⟨[], 1, 1, [⟨"Widget #42", .finite (mkRat 1999 100), .electronics, true⟩]⟩ := by decide

end ProductsApi
